import Mathlib

/-!
Shallow embedding of `ca2a.py`, a command-line client for A2A agents.
The embedding covers the token parser (`parse_items` with its regex
`^([^:=]+)(=|:=|:)(.+)$`), the JSON literal parser used for `:=` values
(`json.loads`), the dispatcher (`main` / `Client.invoke`), response
normalization (`get_result` / `show_response`) and rendering
(`print_json` with pydantic `model_dump_json(exclude_none=True)`).
-/

namespace Ca2a

/-- JSON-like values, as produced by `json.loads` and carried in pydantic
payloads. A number is represented exactly as `mantissa * 10 ^ exp10`,
covering every decimal literal of the JSON grammar without floating point. -/
inductive Json where
  | null : Json
  | bool (b : Bool) : Json
  | num (mantissa : Int) (exp10 : Int) : Json
  | str (s : String) : Json
  | arr (elems : List Json) : Json
  | obj (fields : List (String × Json)) : Json

def Json.isNull : Json → Bool
  | .null => true
  | _ => false

/-! ### The JSON literal grammar (models `json.loads`)

`json.loads` is the standard-library JSON decoder: optional whitespace,
then exactly one value (`null`, `true`, `false`, number, string, array,
object), then optional whitespace, and nothing else. The decoder below
follows that grammar; the CPython extensions `NaN`/`Infinity` and
surrogate-pair recombination are out of scope of the claims and are not
modelled. -/

def isWs (c : Char) : Bool :=
  c = ' ' || c = '\t' || c = '\n' || c = '\r'

def skipWs : List Char → List Char
  | [] => []
  | c :: cs => if isWs c then skipWs cs else c :: cs

def isDigit (c : Char) : Bool :=
  48 ≤ c.toNat && c.toNat ≤ 57

def digitVal (c : Char) : Nat :=
  c.toNat - 48

/-- Split a maximal run of decimal digits off the front. -/
def takeDigits : List Char → List Char × List Char
  | [] => ([], [])
  | c :: cs =>
    if isDigit c then
      let (ds, r) := takeDigits cs
      (c :: ds, r)
    else ([], c :: cs)

def digitsToNat (acc : Nat) : List Char → Nat
  | [] => acc
  | c :: cs => digitsToNat (acc * 10 + digitVal c) cs

/-- Value of one hexadecimal digit (0-9, a-f, A-F), by character code. -/
def hexVal (c : Char) : Option Nat :=
  let n := c.toNat
  if 48 ≤ n && n ≤ 57 then some (n - 48)
  else if 97 ≤ n && n ≤ 102 then some (n - 87)
  else if 65 ≤ n && n ≤ 70 then some (n - 55)
  else none

/-- Body of a JSON string after the opening quote: returns the decoded
characters and the remainder after the closing quote. -/
def parseStringBody : Nat → List Char → Option (List Char × List Char)
  | 0, _ => none
  | _ + 1, [] => none
  | fuel + 1, c :: cs =>
    if c = '"' then some ([], cs)
    else if c = '\\' then
      match cs with
      | [] => none
      | e :: cs1 =>
        let esc : Option (Char × List Char) :=
          if e = '"' then some ('"', cs1)
          else if e = '\\' then some ('\\', cs1)
          else if e = '/' then some ('/', cs1)
          else if e = 'b' then some ('\x08', cs1)
          else if e = 'f' then some ('\x0C', cs1)
          else if e = 'n' then some ('\n', cs1)
          else if e = 'r' then some ('\r', cs1)
          else if e = 't' then some ('\t', cs1)
          else if e = 'u' then
            match cs1 with
            | h1 :: h2 :: h3 :: h4 :: cs2 =>
              match hexVal h1, hexVal h2, hexVal h3, hexVal h4 with
              | some a, some b, some c2, some d =>
                some (Char.ofNat (((a * 16 + b) * 16 + c2) * 16 + d), cs2)
              | _, _, _, _ => none
            | _ => none
          else none
        match esc with
        | none => none
        | some (ch, rest) =>
          match parseStringBody fuel rest with
          | some (body, r) => some (ch :: body, r)
          | none => none
    else if c.toNat < 0x20 then none
    else
      match parseStringBody fuel cs with
      | some (body, r) => some (c :: body, r)
      | none => none

/-- JSON number: `-? (0 | [1-9][0-9]*) (. [0-9]+)? ([eE][+-]?[0-9]+)?`,
already known to start with `-` or a digit. -/
def parseNumber (cs : List Char) : Option (Json × List Char) :=
  let neg : Bool := cs.head? = some '-'
  let cs1 : List Char := if neg then cs.tail else cs
  match cs1 with
  | [] => none
  | c :: _ =>
    if !isDigit c then none
    else
      let (ds, r1) := takeDigits cs1
      if 1 < ds.length && ds.head? = some '0' then none
      else
        let fracStep : Option (List Char × List Char) :=
          match r1 with
          | '.' :: r =>
            let (fds, r2) := takeDigits r
            if fds.isEmpty then none else some (fds, r2)
          | _ => some ([], r1)
        match fracStep with
        | none => none
        | some (fds, r2) =>
          let expStep : Option (Bool × List Char × List Char) :=
            match r2 with
            | 'e' :: r | 'E' :: r =>
              let (esign, r3) :=
                match r with
                | '+' :: r4 => (false, r4)
                | '-' :: r4 => (true, r4)
                | _ => (false, r)
              let (eds, r5) := takeDigits r3
              if eds.isEmpty then none else some (esign, eds, r5)
            | _ => some (false, [], r2)
          match expStep with
          | none => none
          | some (esign, eds, r6) =>
            let mag : Int := Int.ofNat (digitsToNat 0 (ds ++ fds))
            let m : Int := if neg then -mag else mag
            let emag : Int := Int.ofNat (digitsToNat 0 eds)
            let e : Int := (if esign then -emag else emag) - Int.ofNat fds.length
            some (.num m e, r6)

mutual

/-- One JSON value at the head of the input (leading whitespace already
skipped): returns the value and the raw remainder. -/
def parseValue : Nat → List Char → Option (Json × List Char)
  | 0, _ => none
  | _ + 1, [] => none
  | fuel + 1, c :: rest =>
    if c = 'n' then
      match rest with
      | 'u' :: 'l' :: 'l' :: r => some (.null, r)
      | _ => none
    else if c = 't' then
      match rest with
      | 'r' :: 'u' :: 'e' :: r => some (.bool true, r)
      | _ => none
    else if c = 'f' then
      match rest with
      | 'a' :: 'l' :: 's' :: 'e' :: r => some (.bool false, r)
      | _ => none
    else if c = '"' then
      match parseStringBody (rest.length + 1) rest with
      | some (body, r) => some (.str (String.mk body), r)
      | none => none
    else if c = '[' then
      match skipWs rest with
      | ']' :: r => some (.arr [], r)
      | cs1 =>
        match parseElems fuel cs1 with
        | some (js, r) => some (.arr js, r)
        | none => none
    else if c = '\x7b' then
      match skipWs rest with
      | '\x7d' :: r => some (.obj [], r)
      | cs1 =>
        match parseMembers fuel cs1 with
        | some (ms, r) => some (.obj ms, r)
        | none => none
    else if c = '-' || isDigit c then parseNumber (c :: rest)
    else none

/-- Comma-separated array elements up to the closing `]`. -/
def parseElems : Nat → List Char → Option (List Json × List Char)
  | 0, _ => none
  | fuel + 1, cs =>
    match parseValue fuel (skipWs cs) with
    | none => none
    | some (j, r) =>
      match skipWs r with
      | [] => none
      | c :: r2 =>
        if c = ',' then
          match parseElems fuel r2 with
          | some (js, r3) => some (j :: js, r3)
          | none => none
        else if c = ']' then some ([j], r2)
        else none

/-- Comma-separated `"key": value` members up to the closing brace. -/
def parseMembers : Nat → List Char → Option (List (String × Json) × List Char)
  | 0, _ => none
  | fuel + 1, cs =>
    match skipWs cs with
    | '"' :: r =>
      match parseStringBody (r.length + 1) r with
      | none => none
      | some (keyChars, r1) =>
        match skipWs r1 with
        | ':' :: r2 =>
          match parseValue fuel (skipWs r2) with
          | none => none
          | some (v, r3) =>
            match skipWs r3 with
            | [] => none
            | c :: r4 =>
              if c = ',' then
                match parseMembers fuel r4 with
                | some (ms, r5) => some ((String.mk keyChars, v) :: ms, r5)
                | none => none
              else if c = '\x7d' then some ([(String.mk keyChars, v)], r4)
              else none
        | _ => none
    | _ => none

end

/-- Models `json.loads`: decode exactly one JSON value surrounded by
optional whitespace; anything else raises `JSONDecodeError` (here: `none`). -/
def json_loads (s : String) : Option Json :=
  let cs := skipWs s.data
  match parseValue (cs.length + 1) cs with
  | some (j, rest) => if (skipWs rest).isEmpty then some j else none
  | none => none

/-! ### The token grammar (models `PATTERN = re.compile(r"^([^:=]+)(=|:=|:)(.+)$", re.DOTALL)`)

Matching semantics of the Python regex engine on this pattern:
`([^:=]+)` greedily takes the maximal nonempty prefix of characters other
than `':'` and `'='` (shrinking it in backtracking never helps, since the
separator alternation cannot match a non-separator character); the
alternation `(=|:=|:)` tries `=`, then `:=`, then `:` in order; `(.+)`
with `re.DOTALL` requires at least one remaining character, of any kind
including newlines. Consequently a token ending in `":="` with nothing
after it backtracks from the `:=` branch into the `:` branch, yielding
separator `':'` and value `"="`. -/

inductive Sep where
  | eq : Sep
  | colonEq : Sep
  | colon : Sep
deriving DecidableEq, Repr

def isSepChar (c : Char) : Bool :=
  c = ':' || c = '='

/-- Models `PATTERN.match(item)` followed by `match.groups()`:
`none` when the regex does not match, otherwise the triple
(key, separator, value). -/
def PATTERN_match (item : String) : Option (String × Sep × String) :=
  let cs := item.data
  let key := cs.takeWhile (fun c => !isSepChar c)
  let rest := cs.dropWhile (fun c => !isSepChar c)
  if key.isEmpty then none
  else
    match rest with
    | [] => none
    | c :: v =>
      if c = '=' then
        if v.isEmpty then none else some (String.mk key, .eq, String.mk v)
      else if c = ':' then
        match v with
        | [] => none
        | c2 :: v2 =>
          if c2 = '=' then
            if v2.isEmpty then some (String.mk key, .colon, "=")
            else some (String.mk key, .colonEq, String.mk v2)
          else some (String.mk key, .colon, String.mk v)
      else none

/-! ### Python dict assignment

`d[key] = value` keeps each key at most once: an existing binding is
overwritten in place, a new key is appended at the end (insertion order). -/

/-- Models `d[k] = v` on a Python dict represented as an association list
whose keys are pairwise distinct. -/
def dictSet {α : Type} : List (String × α) → String → α → List (String × α)
  | [], k, v => [(k, v)]
  | (k1, v1) :: rest, k, v =>
    if k1 = k then (k, v) :: rest else (k1, v1) :: dictSet rest k v

/-- The two `ValueError` kinds raised by `parse_items`:
`f"Invalid item: {item!r}"` and `f"Invalid JSON value: {value!r}"`. -/
inductive ParseError where
  | invalidItem (item : String) : ParseError
  | invalidValue (value : String) : ParseError
deriving DecidableEq, Repr

/-- The body of the inner `parse(item)` closure of `parse_items`, acting on
the current `(params, headers)` state. A raised `ValueError` is `Except.error`.
The `case _` branch for an unknown separator is unreachable (the regex only
produces the three separators) and needs no constructor. -/
def parseOne (st : List (String × Json) × List (String × String)) (item : String) :
    Except ParseError (List (String × Json) × List (String × String)) :=
  match PATTERN_match item with
  | none => .error (.invalidItem item)
  | some (key, sep, value) =>
    match sep with
    | .eq => .ok (dictSet st.1 key (.str value), st.2)
    | .colonEq =>
      match json_loads value with
      | some parsedValue => .ok (dictSet st.1 key parsedValue, st.2)
      | none => .error (.invalidValue value)
    | .colon => .ok (st.1, dictSet st.2 key value)

/-- The `for item in items: parse(item)` loop of `parse_items`. -/
def parseLoop (st : List (String × Json) × List (String × String)) :
    List String → Except ParseError (List (String × Json) × List (String × String))
  | [] => .ok st
  | item :: rest =>
    match parseOne st item with
    | .ok st1 => parseLoop st1 rest
    | .error e => .error e

/-- Models `parse_items`: parse items in the form of `key:value`,
`key=string_value` or `key:=json_value` into `(params, headers)`,
raising (`Except.error`) on the first bad token. -/
def parse_items (items : List String) :
    Except ParseError (List (String × Json) × List (String × String)) :=
  parseLoop ([], []) items

/-! ### Rendering (models `print_json` / pydantic `model_dump_json(exclude_none=True)`)

`exclude_none=True` recursively drops object fields whose value is `None`;
it does not drop empty strings, empty arrays or empty objects, and `None`
elements inside arrays are not fields and are kept. -/

mutual

/-- Models the payload transformation done by
`model_dump_json(exclude_none=True)`: every object field bound to `null`
is omitted, recursively; everything else is kept unchanged. -/
def model_dump_exclude_none : Json → Json
  | .null => .null
  | .bool b => .bool b
  | .num m e => .num m e
  | .str s => .str s
  | .arr xs => .arr (excludeNoneList xs)
  | .obj fs => .obj (excludeNoneFields fs)

def excludeNoneList : List Json → List Json
  | [] => []
  | j :: rest => model_dump_exclude_none j :: excludeNoneList rest

def excludeNoneFields : List (String × Json) → List (String × Json)
  | [] => []
  | (k, v) :: rest =>
    if v.isNull then excludeNoneFields rest
    else (k, model_dump_exclude_none v) :: excludeNoneFields rest

end

/-! ### Response envelopes and the dispatcher

The `JSONRPCResponse.root` tagged union: an error response carrying an
error payload, a unary success response carrying a result, a streaming
success response carrying a result, or anything else (which
`get_result` rejects). -/

inductive RPCResponse where
  | errorResp (err : Json) : RPCResponse
  | sendSuccess (result : Json) : RPCResponse
  | streamSuccess (result : Json) : RPCResponse
  | other (raw : String) : RPCResponse

/-- Models the inner `get_result(resp)` of `Client.show_response`: extract
the error payload or the success result; any other shape raises
`ValueError` naming the serialized envelope. -/
def get_result : RPCResponse → Except String Json
  | .errorResp e => .ok e
  | .sendSuccess r => .ok r
  | .streamSuccess r => .ok r
  | .other raw => .error ("Unsupported A2A response: " ++ raw)

/-- Observable steps of one invocation. `acquire` is the construction of
the per-call `httpx.AsyncClient`; `release` would be an explicit close of
that client (`aclose` / `async with`) — the source contains no such call,
so no code path below ever emits it. `consume` is the arrival of one chunk
from the streaming async iterator; the `print` events carry what
`print_json` serializes. -/
inductive Event where
  | acquire (headers : List (String × String)) : Event
  | release : Event
  | transportSend (params : List (String × Json)) : Event
  | transportStream (params : List (String × Json)) : Event
  | consume (chunk : RPCResponse) : Event
  | printReq (request : Json) : Event
  | printResp (chunk : RPCResponse) : Event
  | printOut (payload : Json) : Event

def Event.isTransport : Event → Bool
  | .transportSend _ => true
  | .transportStream _ => true
  | _ => false

/-- External collaborators of one call: `MessageSendParams.model_validate`
(may raise a validation error), the `uuid4()` request id, and the
transport's responses for the unary call and the streaming call. -/
structure Env where
  validate : List (String × Json) → Except String (List (String × Json))
  reqId : String
  sendResponse : RPCResponse
  streamResponses : List RPCResponse

/-- The serialized JSON-RPC request object passed to `show_request`. -/
def requestJson (id : String) (method : String) (params : List (String × Json)) : Json :=
  .obj [("id", .str id), ("jsonrpc", .str "2.0"), ("method", .str method),
        ("params", .obj params)]

/-- Models `Client.show_request`: under `--verbose` the request is printed
(`print_json` applies `exclude_none`); otherwise nothing. -/
def show_request (verbose : Bool) (request : Json) : List Event :=
  if verbose then [.printReq (model_dump_exclude_none request)] else []

/-- Models the branch of `Client.show_response` where
`is_async_iterator(response)` is false (the unary `send_message` result):
print the raw envelope under `--verbose`, otherwise print the extracted
result; a `get_result` failure propagates. -/
def show_response_value (verbose : Bool) (response : RPCResponse) :
    List Event × Option String :=
  if verbose then ([.printResp response], none)
  else
    match get_result response with
    | .ok result => ([.printOut (model_dump_exclude_none result)], none)
    | .error msg => ([], some msg)

/-- Models the branch of `Client.show_response` where
`is_async_iterator(response)` is true: the `async for chunk in response`
loop consumes one chunk at a time and prints it (raw under `--verbose`,
its extracted result otherwise) before awaiting the next; a `get_result`
failure aborts the loop. -/
def show_response_stream (verbose : Bool) : List RPCResponse → List Event × Option String
  | [] => ([], none)
  | chunk :: rest =>
    if verbose then
      let (tr, err) := show_response_stream verbose rest
      (.consume chunk :: .printResp chunk :: tr, err)
    else
      match get_result chunk with
      | .ok result =>
        let (tr, err) := show_response_stream verbose rest
        (.consume chunk :: .printOut (model_dump_exclude_none result) :: tr, err)
      | .error msg => ([.consume chunk], some msg)

/-- The supported A2A methods. -/
def METHODS : List String := ["message/send", "message/stream"]

structure Client where
  url : String
  method : String
  params : List (String × Json)
  headers : List (String × String)

/-- Models `Client.invoke`: construct the per-call `httpx.AsyncClient`
(the `acquire` event — never paired with a `release`, the source never
closes it), then dispatch on the method: validate the params, optionally
echo the request, perform the transport call and show the response; an
unknown method raises `ValueError` after the client was constructed.
Returns the event trace and the raised error, if any. -/
def Client.invoke (c : Client) (verbose : Bool) (env : Env) :
    List Event × Option String :=
  if c.method = "message/send" then
    match env.validate c.params with
    | .error msg => ([.acquire c.headers], some msg)
    | .ok params =>
      let reqEvents := show_request verbose (requestJson env.reqId "message/send" params)
      let (tr, err) := show_response_value verbose env.sendResponse
      (.acquire c.headers :: reqEvents ++ .transportSend params :: tr, err)
  else if c.method = "message/stream" then
    match env.validate c.params with
    | .error msg => ([.acquire c.headers], some msg)
    | .ok params =>
      let reqEvents := show_request verbose (requestJson env.reqId "message/stream" params)
      let (tr, err) := show_response_stream verbose env.streamResponses
      (.acquire c.headers :: reqEvents ++ .transportStream params :: tr, err)
  else ([.acquire c.headers], some ("Unsupported method: " ++ c.method))

/-- Errors surfaced by `main`: `parser.error` (usage, exit code 2) for a
bad method or bad items, or an error escaping `client.invoke`. -/
inductive CliError where
  | usageError (msg : String) : CliError
  | runtimeError (msg : String) : CliError

def ParseError.message : ParseError → String
  | .invalidItem item => "Invalid item: " ++ item
  | .invalidValue value => "Invalid JSON value: " ++ value

/-- Models `main` after argument parsing: reject a method outside
`METHODS` (before anything else), parse the items (a `ValueError` becomes
a usage error), build the `Client` and run `invoke`. -/
def main (url method : String) (items : List String) (verbose : Bool) (env : Env) :
    List Event × Option CliError :=
  if METHODS.contains method then
    match parse_items items with
    | .error e => ([], some (.usageError (ParseError.message e)))
    | .ok (params, headers) =>
      let c : Client := ⟨url, method, params, headers⟩
      let (tr, err) := c.invoke verbose env
      (tr, err.map .runtimeError)
  else ([], some (.usageError ("Invalid method: " ++ method)))

/-! ### Derived notions used to state properties -/

/-- An envelope `get_result` recognizes: any variant except `other`. -/
def RPCResponse.recognized : RPCResponse → Bool
  | .other _ => false
  | _ => true

/-- The payload `get_result` extracts from a recognized envelope
(error payload or success result). -/
def RPCResponse.payload : RPCResponse → Json
  | .errorResp e => e
  | .sendSuccess r => r
  | .streamSuccess r => r
  | .other _ => .null

/-- The error a single token produces, independent of any parser state:
`invalidItem` when the regex does not match, `invalidValue` when the `:=`
value is not valid JSON, `none` when the token parses. -/
def tokenError (item : String) : Option ParseError :=
  match PATTERN_match item with
  | none => some (.invalidItem item)
  | some (_, .colonEq, v) =>
    match json_loads v with
    | none => some (.invalidValue v)
    | some _ => none
  | some _ => none

/-- The `(key, value)` binding a token writes into `params`, if any. -/
def paramWrite (item : String) : Option (String × Json) :=
  match PATTERN_match item with
  | some (k, .eq, v) => some (k, .str v)
  | some (k, .colonEq, v) => (json_loads v).map (fun j => (k, j))
  | _ => none

/-- The `(key, value)` binding a token writes into `headers`, if any. -/
def headerWrite (item : String) : Option (String × String) :=
  match PATTERN_match item with
  | some (k, .colon, v) => some (k, v)
  | _ => none

/-- The value the last token of `items` writing key `k` (according to the
write function `w`) contributes, scanning from the right. -/
def lastWrite {α : Type} (w : String → Option (String × α)) :
    List String → String → Option α
  | [], _ => none
  | item :: rest, k =>
    match lastWrite w rest k with
    | some v => some v
    | none =>
      match w item with
      | some (k1, v) => if k1 = k then some v else none
      | none => none

mutual

/-- No object field anywhere in the value is bound to `null` (array
elements may still be `null`: they are not fields). -/
def noNullFieldsJson : Json → Bool
  | .null => true
  | .bool _ => true
  | .num _ _ => true
  | .str _ => true
  | .arr xs => noNullFieldsList xs
  | .obj fs => noNullFieldsFields fs

def noNullFieldsList : List Json → Bool
  | [] => true
  | j :: rest => noNullFieldsJson j && noNullFieldsList rest

def noNullFieldsFields : List (String × Json) → Bool
  | (_, v) :: rest => !v.isNull && noNullFieldsJson v && noNullFieldsFields rest
  | [] => true

end

/-! ## Helper lemmas about the token matcher -/

theorem takeWhile_nonsep_append (kd rest : List Char)
    (hks : ∀ c ∈ kd, isSepChar c = false)
    (hr : ∀ c, rest.head? = some c → isSepChar c = true) :
    (kd ++ rest).takeWhile (fun c => !isSepChar c) = kd ∧
    (kd ++ rest).dropWhile (fun c => !isSepChar c) = rest := by
  induction kd with
  | nil =>
    cases rest with
    | nil => exact ⟨rfl, rfl⟩
    | cons c cs =>
      have hc := hr c rfl
      constructor
      · simp [List.takeWhile, hc]
      · simp [List.dropWhile, hc]
  | cons c kd ih =>
    have hc : isSepChar c = false := hks c (by simp)
    have ih2 := ih (fun c2 hc2 => hks c2 (by simp [hc2]))
    constructor
    · simp [List.takeWhile, hc, ih2.1]
    · simp [List.dropWhile, hc, ih2.2]

theorem string_ne_empty_data {s : String} (h : s ≠ "") : s.data ≠ [] := by
  intro hd
  exact h (by cases s; simp_all)

theorem PATTERN_match_eqSep (k v : String) (hk : k ≠ "")
    (hks : ∀ c ∈ k.data, isSepChar c = false) (hv : v ≠ "") :
    PATTERN_match (k ++ "=" ++ v) = some (k, .eq, v) := by
  have hdata : (k ++ "=" ++ v).data = k.data ++ ('=' :: v.data) := by
    simp [String.data_append]
  have hsplit := takeWhile_nonsep_append k.data ('=' :: v.data) hks
    (by intro c hc; simp at hc; simp [← hc, isSepChar])
  unfold PATTERN_match
  rw [hdata]
  simp only [hsplit.1, hsplit.2]
  have hkne : k.data ≠ [] := string_ne_empty_data hk
  have hvne : v.data ≠ [] := string_ne_empty_data hv
  simp [List.isEmpty_iff, hkne, hvne]

theorem PATTERN_match_colonSep (k v : String) (hk : k ≠ "")
    (hks : ∀ c ∈ k.data, isSepChar c = false) (hv : v ≠ "")
    (hv2 : v.data.head? ≠ some '=') :
    PATTERN_match (k ++ ":" ++ v) = some (k, .colon, v) := by
  have hdata : (k ++ ":" ++ v).data = k.data ++ (':' :: v.data) := by
    simp [String.data_append]
  have hsplit := takeWhile_nonsep_append k.data (':' :: v.data) hks
    (by intro c hc; simp at hc; simp [← hc, isSepChar])
  unfold PATTERN_match
  rw [hdata]
  simp only [hsplit.1, hsplit.2]
  have hkne : k.data ≠ [] := string_ne_empty_data hk
  obtain ⟨c, cs, hcs⟩ : ∃ c cs, v.data = c :: cs := by
    cases hvd : v.data with
    | nil => exact absurd hvd (string_ne_empty_data hv)
    | cons c cs => exact ⟨c, cs, rfl⟩
  have hcne : c ≠ '=' := by
    intro h
    exact hv2 (by rw [hcs, h]; rfl)
  rw [hcs]
  simp [List.isEmpty_iff, hkne, hcne, ← hcs]

theorem PATTERN_match_colonEqSep (k v : String) (hk : k ≠ "")
    (hks : ∀ c ∈ k.data, isSepChar c = false) (hv : v ≠ "") :
    PATTERN_match (k ++ ":=" ++ v) = some (k, .colonEq, v) := by
  have hdata : (k ++ ":=" ++ v).data = k.data ++ (':' :: '=' :: v.data) := by
    simp [String.data_append]
  have hsplit := takeWhile_nonsep_append k.data (':' :: '=' :: v.data) hks
    (by intro c hc; simp at hc; simp [← hc, isSepChar])
  unfold PATTERN_match
  rw [hdata]
  simp only [hsplit.1, hsplit.2]
  have hkne : k.data ≠ [] := string_ne_empty_data hk
  have hvne : v.data ≠ [] := string_ne_empty_data hv
  simp [List.isEmpty_iff, hkne, hvne]

theorem PATTERN_match_colonEq_noValue (k : String) (hk : k ≠ "")
    (hks : ∀ c ∈ k.data, isSepChar c = false) :
    PATTERN_match (k ++ ":=") = some (k, .colon, "=") := by
  have hdata : (k ++ ":=").data = k.data ++ [':', '='] := by
    simp [String.data_append]
  have hsplit := takeWhile_nonsep_append k.data [':', '='] hks
    (by intro c hc; simp at hc; simp [← hc, isSepChar])
  unfold PATTERN_match
  rw [hdata]
  simp only [hsplit.1, hsplit.2]
  have hkne : k.data ≠ [] := string_ne_empty_data hk
  simp [List.isEmpty_iff, hkne]

theorem PATTERN_match_eq_noValue (k : String) (hk : k ≠ "")
    (hks : ∀ c ∈ k.data, isSepChar c = false) :
    PATTERN_match (k ++ "=") = none := by
  have hdata : (k ++ "=").data = k.data ++ ['='] := by
    simp [String.data_append]
  have hsplit := takeWhile_nonsep_append k.data ['='] hks
    (by intro c hc; simp at hc; simp [← hc, isSepChar])
  unfold PATTERN_match
  rw [hdata]
  simp only [hsplit.1, hsplit.2]
  have hkne : k.data ≠ [] := string_ne_empty_data hk
  simp [List.isEmpty_iff, hkne]

theorem PATTERN_match_colon_noValue (k : String) (hk : k ≠ "")
    (hks : ∀ c ∈ k.data, isSepChar c = false) :
    PATTERN_match (k ++ ":") = none := by
  have hdata : (k ++ ":").data = k.data ++ [':'] := by
    simp [String.data_append]
  have hsplit := takeWhile_nonsep_append k.data [':'] hks
    (by intro c hc; simp at hc; simp [← hc, isSepChar])
  unfold PATTERN_match
  rw [hdata]
  simp only [hsplit.1, hsplit.2]
  have hkne : k.data ≠ [] := string_ne_empty_data hk
  simp [List.isEmpty_iff, hkne]

theorem json_loads_empty : json_loads "" = none := rfl

theorem parseOne_of_tokenError_some (item : String)
    (st : List (String × Json) × List (String × String)) (e : ParseError)
    (h : tokenError item = some e) : parseOne st item = .error e := by
  unfold tokenError at h
  unfold parseOne
  cases hm : PATTERN_match item with
  | none => simp [hm] at h ⊢; exact h
  | some g =>
    obtain ⟨k, sep, v⟩ := g
    rw [hm] at h
    cases sep with
    | eq => simp at h
    | colon => simp at h
    | colonEq =>
      cases hj : json_loads v with
      | none => simp [hj] at h; simp [hj, ← h]
      | some j => simp [hj] at h

theorem parseOne_of_tokenError_none (item : String)
    (st : List (String × Json) × List (String × String))
    (h : tokenError item = none) : ∃ st1, parseOne st item = .ok st1 := by
  unfold tokenError at h
  unfold parseOne
  cases hm : PATTERN_match item with
  | none => simp [hm] at h
  | some g =>
    obtain ⟨k, sep, v⟩ := g
    rw [hm] at h
    cases sep with
    | eq => exact ⟨_, rfl⟩
    | colon => exact ⟨_, rfl⟩
    | colonEq =>
      cases hj : json_loads v with
      | none => simp [hj] at h
      | some j =>
        refine ⟨(dictSet st.1 k j, st.2), ?_⟩
        simp [hj]

theorem parseLoop_error_first (pre : List String) (t : String) (post : List String)
    (e : ParseError) (hpre : ∀ u ∈ pre, tokenError u = none) (ht : tokenError t = some e) :
    ∀ st, parseLoop st (pre ++ t :: post) = .error e := by
  induction pre with
  | nil =>
    intro st
    simp [parseLoop, parseOne_of_tokenError_some t st e ht]
  | cons u pre ih =>
    intro st
    obtain ⟨st1, hst1⟩ := parseOne_of_tokenError_none u st (hpre u (by simp))
    have tail := ih (fun x hx => hpre x (by simp [hx])) st1
    simp [parseLoop, hst1]
    exact tail

/-! ## C1 -/

/-- C1: on a single accepted token, `k=v` stores `params[k] = v` verbatim as a
string with no header entry, `k:v` (value not starting with `=`, which the
`:=` rule would capture) stores `headers[k] = v` with no param entry, and
`k:=v` with `v` valid JSON stores the parsed value; and the concrete scenario
`["name=Alice", "age:=30", "x-api-key:secret"]` produces params
`{"name": "Alice", "age": 30}` and headers `{"x-api-key": "secret"}`. -/
theorem token_kind_classification :
    (∀ k v : String, k ≠ "" → (∀ c ∈ k.data, isSepChar c = false) → v ≠ "" →
      parse_items [k ++ "=" ++ v] = .ok ([(k, Json.str v)], [])) ∧
    (∀ k v : String, k ≠ "" → (∀ c ∈ k.data, isSepChar c = false) → v ≠ "" →
      v.data.head? ≠ some '=' →
      parse_items [k ++ ":" ++ v] = .ok ([], [(k, v)])) ∧
    (∀ (k v : String) (j : Json), k ≠ "" → (∀ c ∈ k.data, isSepChar c = false) →
      json_loads v = some j →
      parse_items [k ++ ":=" ++ v] = .ok ([(k, j)], [])) ∧
    parse_items ["name=Alice", "age:=30", "x-api-key:secret"] =
      .ok ([("name", Json.str "Alice"), ("age", Json.num 30 0)], [("x-api-key", "secret")]) := by
  refine ⟨?_, ?_, ?_, rfl⟩
  · intro k v hk hks hv
    simp [parse_items, parseLoop, parseOne, PATTERN_match_eqSep k v hk hks hv, dictSet]
  · intro k v hk hks hv hv2
    simp [parse_items, parseLoop, parseOne, PATTERN_match_colonSep k v hk hks hv hv2, dictSet]
  · intro k v j hk hks hj
    have hv : v ≠ "" := by
      intro h
      rw [h, json_loads_empty] at hj
      exact Option.noConfusion hj
    simp [parse_items, parseLoop, parseOne, PATTERN_match_colonEqSep k v hk hks hv, hj, dictSet]

/-- Witness for C1 at concrete tokens. -/
theorem token_kind_classification_witness :
    parse_items ["k=v"] = .ok ([("k", Json.str "v")], []) ∧
    parse_items ["k:v"] = .ok ([], [("k", "v")]) ∧
    parse_items ["k:=true"] = .ok ([("k", Json.bool true)], []) := by
  refine ⟨?_, ?_, ?_⟩
  · have h := token_kind_classification.1 "k" "v" (by decide) (by decide) (by decide)
    simpa using h
  · have h := token_kind_classification.2.1 "k" "v" (by decide) (by decide) (by decide) (by decide)
    simpa using h
  · have h := token_kind_classification.2.2.1 "k" "true" (Json.bool true) (by decide) (by decide) rfl
    simpa using h

/-! ## C2 -/

/-- C2 counterexample: with the empty value text `b = ""`, the token `a:=`
is NOT matched with separator `:=`; the regex backtracks and yields header
key `a` with value `"="` (which is `"=" ++ b` for `b = ""`), so
`parse_items` stores a header entry. -/
theorem colonEq_precedence_counterexample :
    PATTERN_match "a:=" = some ("a", Sep.colon, "=") ∧
    parse_items ["a:="] = .ok ([], [("a", "=")]) :=
  ⟨rfl, rfl⟩

/-- C2 (amended): for every key `a` (nonempty, without `:` or `=`) and every
NONEMPTY value text `b`, the token `a:=b` is matched with key `a` and
separator `:=`, never as a header; when `b` is empty the regex backtracks
and `a:=` is matched as header key `a` with value `"="`. -/
theorem colonEq_precedence (a b : String) (ha : a ≠ "")
    (has : ∀ c ∈ a.data, isSepChar c = false) :
    (b ≠ "" → PATTERN_match (a ++ ":=" ++ b) = some (a, Sep.colonEq, b)) ∧
    PATTERN_match (a ++ ":=") = some (a, Sep.colon, "=") :=
  ⟨fun hb => PATTERN_match_colonEqSep a b ha has hb,
   PATTERN_match_colonEq_noValue a ha has⟩

/-- Witness for C2 (amended) at `a = "a"`, `b = "30"`. -/
theorem colonEq_precedence_witness :
    PATTERN_match "a:=30" = some ("a", Sep.colonEq, "30") := by
  have h := (colonEq_precedence "a" "30" (by decide) (by decide)).1 (by decide)
  simpa using h

/-! ## C3 -/

/-- C3: parsing is all-or-nothing — if the token list contains a malformed
token after a prefix of well-formed ones, `parse_items` returns the error of
that first malformed token, and in particular never returns any pair of
maps, partial or otherwise. -/
theorem parse_items_all_or_nothing (pre : List String) (t : String) (post : List String)
    (e : ParseError) (hpre : ∀ u ∈ pre, tokenError u = none)
    (ht : tokenError t = some e) :
    parse_items (pre ++ t :: post) = .error e ∧
    ∀ ps hs, parse_items (pre ++ t :: post) ≠ .ok (ps, hs) := by
  have h := parseLoop_error_first pre t post e hpre ht ([], [])
  exact ⟨h, fun ps hs hok => by rw [parse_items, h] at hok; exact Except.noConfusion hok⟩

/-- Witness for C3: one bad token among valid ones aborts the parse. -/
theorem parse_items_all_or_nothing_witness :
    parse_items ["a=1", "bad", "b=2"] = .error (.invalidItem "bad") := by
  have h := parse_items_all_or_nothing ["a=1"] "bad" ["b=2"] (.invalidItem "bad")
    (by intro u hu; simp at hu; subst hu; rfl) rfl
  simpa using h.1

/-! ## C4 -/

/-- C4: a token the regex rejects fails with the `invalidItem` error naming
the raw token; a `:=` token whose value is not valid JSON fails with the
distinct `invalidValue` error naming the offending value text; and the two
error kinds never coincide. -/
theorem parse_error_kinds :
    (∀ item : String, PATTERN_match item = none →
      parse_items [item] = .error (.invalidItem item)) ∧
    (∀ (item k v : String), PATTERN_match item = some (k, Sep.colonEq, v) →
      json_loads v = none →
      parse_items [item] = .error (.invalidValue v)) ∧
    (∀ i v : String, ParseError.invalidItem i ≠ ParseError.invalidValue v) := by
  refine ⟨?_, ?_, ?_⟩
  · intro item hm
    simp [parse_items, parseLoop, parseOne, hm]
  · intro item k v hm hj
    simp [parse_items, parseLoop, parseOne, hm, hj]
  · intro i v h
    exact ParseError.noConfusion h

/-- Witness for C4: `"bad"` has no separator; `"k:=oops"` has an invalid
JSON value. -/
theorem parse_error_kinds_witness :
    parse_items ["bad"] = .error (.invalidItem "bad") ∧
    parse_items ["k:=oops"] = .error (.invalidValue "oops") :=
  ⟨parse_error_kinds.1 "bad" rfl,
   parse_error_kinds.2.1 "k:=oops" "k" "oops" rfl rfl⟩

/-! ## C10 -/

/-- C10 counterexample: the token `k:=` (empty value after `:=`) is NOT
rejected with the "invalid item" error — the regex backtracks and it is
accepted as the header `k: "="`. -/
theorem empty_value_counterexample :
    parse_items ["k:="] = .ok ([], [("k", "=")]) := rfl

/-- C10 (amended): for every key `k` (nonempty, without `:` or `=`), the
tokens `k=` and `k:` are rejected with the `invalidItem` error and nothing
is stored; the token `k:=`, however, is accepted as header `k` bound to
`"="` because the regex backtracks from the `:=` separator to `:`. -/
theorem empty_value_tokens (k : String) (hk : k ≠ "")
    (hks : ∀ c ∈ k.data, isSepChar c = false) :
    parse_items [k ++ "="] = .error (.invalidItem (k ++ "=")) ∧
    parse_items [k ++ ":"] = .error (.invalidItem (k ++ ":")) ∧
    parse_items [k ++ ":="] = .ok ([], [(k, "=")]) := by
  refine ⟨?_, ?_, ?_⟩
  · simp [parse_items, parseLoop, parseOne, PATTERN_match_eq_noValue k hk hks]
  · simp [parse_items, parseLoop, parseOne, PATTERN_match_colon_noValue k hk hks]
  · simp [parse_items, parseLoop, parseOne, PATTERN_match_colonEq_noValue k hk hks, dictSet]

/-- Witness for C10 (amended) at `k = "x"`. -/
theorem empty_value_tokens_witness :
    parse_items ["x="] = .error (.invalidItem "x=") ∧
    parse_items ["x:"] = .error (.invalidItem "x:") ∧
    parse_items ["x:="] = .ok ([], [("x", "=")]) := by
  have h := empty_value_tokens "x" (by decide) (by decide)
  exact ⟨by simpa using h.1, by simpa using h.2.1, by simpa using h.2.2⟩

/-! ## Dict lemmas and the last-write characterization (C9) -/

theorem dictSet_lookup_self {α : Type} (m : List (String × α)) (k : String) (v : α) :
    (dictSet m k v).lookup k = some v := by
  induction m with
  | nil => simp [dictSet]
  | cons p m ih =>
    obtain ⟨k1, v1⟩ := p
    by_cases h : k1 = k
    · subst h; simp [dictSet]
    · have hb : (k == k1) = false := beq_eq_false_iff_ne.mpr (Ne.symm h)
      simp [dictSet, h, List.lookup_cons, hb, ih]

theorem dictSet_lookup_ne {α : Type} (m : List (String × α)) (k k2 : String) (v : α)
    (h : k2 ≠ k) : (dictSet m k v).lookup k2 = m.lookup k2 := by
  have hb : (k2 == k) = false := beq_eq_false_iff_ne.mpr h
  induction m with
  | nil => simp [dictSet, List.lookup_cons, hb]
  | cons p m ih =>
    obtain ⟨k1, v1⟩ := p
    by_cases h1 : k1 = k
    · subst h1; simp [dictSet, List.lookup_cons, hb]
    · cases hk : (k2 == k1) <;> simp [dictSet, h1, List.lookup_cons, hk, ih]

theorem lookup_isSome_iff_mem_keys {α : Type} (m : List (String × α)) (k : String) :
    (m.lookup k).isSome ↔ k ∈ m.map Prod.fst := by
  induction m with
  | nil => simp
  | cons p m ih =>
    obtain ⟨k1, v1⟩ := p
    by_cases h : k = k1
    · subst h; simp
    · have hb : (k == k1) = false := beq_eq_false_iff_ne.mpr h
      simp [List.lookup_cons, hb, ih, h]

theorem dictSet_keys {α : Type} (m : List (String × α)) (k : String) (v : α) :
    (dictSet m k v).map Prod.fst =
      if k ∈ m.map Prod.fst then m.map Prod.fst else m.map Prod.fst ++ [k] := by
  induction m with
  | nil => simp [dictSet]
  | cons p m ih =>
    obtain ⟨k1, v1⟩ := p
    by_cases h : k1 = k
    · subst h; simp [dictSet]
    · have h3 : k ≠ k1 := fun hh => h hh.symm
      by_cases h2 : k ∈ m.map Prod.fst <;>
        simp [dictSet, h, ih, h3, h2]

theorem dictSet_keys_nodup {α : Type} (m : List (String × α)) (k : String) (v : α)
    (h : (m.map Prod.fst).Nodup) : ((dictSet m k v).map Prod.fst).Nodup := by
  rw [dictSet_keys]
  by_cases h2 : k ∈ m.map Prod.fst
  · simpa [h2] using h
  · simp [h2, List.nodup_append, h]

theorem parseOne_lookup (st st1 : List (String × Json) × List (String × String))
    (item : String) (h : parseOne st item = .ok st1) (k : String) :
    st1.1.lookup k = (match paramWrite item with
                      | some (k1, v) => if k1 = k then some v else st.1.lookup k
                      | none => st.1.lookup k) ∧
    st1.2.lookup k = (match headerWrite item with
                      | some (k1, v) => if k1 = k then some v else st.2.lookup k
                      | none => st.2.lookup k) := by
  unfold parseOne at h
  unfold paramWrite headerWrite
  cases hm : PATTERN_match item with
  | none => rw [hm] at h; exact Except.noConfusion h
  | some g =>
    obtain ⟨k1, sep, v⟩ := g
    rw [hm] at h
    cases sep with
    | eq =>
      simp at h
      subst h
      refine ⟨?_, by simp⟩
      by_cases hk : k1 = k
      · subst hk; simp [dictSet_lookup_self]
      · simp [hk, dictSet_lookup_ne st.1 k1 k _ (fun hh => hk hh.symm)]
    | colonEq =>
      cases hj : json_loads v with
      | none => simp [hj] at h
      | some j =>
        simp [hj] at h
        subst h
        refine ⟨?_, by simp [hj]⟩
        simp only [hj, Option.map_some]
        by_cases hk : k1 = k
        · subst hk; simp [dictSet_lookup_self]
        · simp [hk, dictSet_lookup_ne st.1 k1 k _ (fun hh => hk hh.symm)]
    | colon =>
      simp at h
      subst h
      refine ⟨by simp, ?_⟩
      by_cases hk : k1 = k
      · subst hk; simp [dictSet_lookup_self]
      · simp [hk, dictSet_lookup_ne st.2 k1 k _ (fun hh => hk hh.symm)]

theorem parseOne_nodup (st st1 : List (String × Json) × List (String × String))
    (item : String) (h : parseOne st item = .ok st1)
    (h1 : (st.1.map Prod.fst).Nodup) (h2 : (st.2.map Prod.fst).Nodup) :
    (st1.1.map Prod.fst).Nodup ∧ (st1.2.map Prod.fst).Nodup := by
  unfold parseOne at h
  cases hm : PATTERN_match item with
  | none => rw [hm] at h; exact Except.noConfusion h
  | some g =>
    obtain ⟨k1, sep, v⟩ := g
    rw [hm] at h
    cases sep with
    | eq =>
      simp at h
      subst h
      exact ⟨dictSet_keys_nodup _ _ _ h1, h2⟩
    | colonEq =>
      cases hj : json_loads v with
      | none => simp [hj] at h
      | some j =>
        simp [hj] at h
        subst h
        exact ⟨dictSet_keys_nodup _ _ _ h1, h2⟩
    | colon =>
      simp at h
      subst h
      exact ⟨h1, dictSet_keys_nodup _ _ _ h2⟩

theorem parseLoop_lookup (items : List String)
    (st : List (String × Json) × List (String × String))
    (ps : List (String × Json)) (hs : List (String × String))
    (h : parseLoop st items = .ok (ps, hs)) (k : String) :
    ps.lookup k = (match lastWrite paramWrite items k with
                   | some v => some v
                   | none => st.1.lookup k) ∧
    hs.lookup k = (match lastWrite headerWrite items k with
                   | some v => some v
                   | none => st.2.lookup k) := by
  induction items generalizing st with
  | nil =>
    simp [parseLoop] at h
    subst h
    simp [lastWrite]
  | cons item rest ih =>
    cases hone : parseOne st item with
    | error e => rw [parseLoop, hone] at h; exact Except.noConfusion h
    | ok st1 =>
      rw [parseLoop, hone] at h
      have hrec := ih st1 h
      have hstep := parseOne_lookup st st1 item hone k
      constructor
      · rw [hrec.1, lastWrite]
        cases lastWrite paramWrite rest k with
        | some v => simp
        | none =>
          simp only []
          rw [hstep.1]
          cases hw : paramWrite item with
          | none => simp
          | some p =>
            obtain ⟨k1, v⟩ := p
            by_cases hk : k1 = k <;> simp [hk]
      · rw [hrec.2, lastWrite]
        cases lastWrite headerWrite rest k with
        | some v => simp
        | none =>
          simp only []
          rw [hstep.2]
          cases hw : headerWrite item with
          | none => simp
          | some p =>
            obtain ⟨k1, v⟩ := p
            by_cases hk : k1 = k <;> simp [hk]

theorem parseLoop_nodup (items : List String)
    (st : List (String × Json) × List (String × String))
    (ps : List (String × Json)) (hs : List (String × String))
    (h : parseLoop st items = .ok (ps, hs))
    (h1 : (st.1.map Prod.fst).Nodup) (h2 : (st.2.map Prod.fst).Nodup) :
    (ps.map Prod.fst).Nodup ∧ (hs.map Prod.fst).Nodup := by
  induction items generalizing st with
  | nil =>
    simp [parseLoop] at h
    subst h
    exact ⟨h1, h2⟩
  | cons item rest ih =>
    cases hone : parseOne st item with
    | error e => rw [parseLoop, hone] at h; exact Except.noConfusion h
    | ok st1 =>
      rw [parseLoop, hone] at h
      have hstep := parseOne_nodup st st1 item hone h1 h2
      exact ih st1 h hstep.1 hstep.2

/-! ## C9 -/

/-- C9: when `parse_items` succeeds, each map binds a key at most once
(keys are pairwise distinct; a key that was written occurs exactly once),
and every lookup returns exactly the value contributed by the LAST token in
sequence order that writes that key into that map. -/
theorem last_occurrence_wins (items : List String) (ps : List (String × Json))
    (hs : List (String × String)) (h : parse_items items = .ok (ps, hs)) :
    (∀ k, ps.lookup k = lastWrite paramWrite items k) ∧
    (∀ k, hs.lookup k = lastWrite headerWrite items k) ∧
    (ps.map Prod.fst).Nodup ∧ (hs.map Prod.fst).Nodup ∧
    (∀ k, (lastWrite paramWrite items k).isSome → (ps.map Prod.fst).count k = 1) ∧
    (∀ k, (lastWrite headerWrite items k).isSome → (hs.map Prod.fst).count k = 1) := by
  have hnodup := parseLoop_nodup items ([], []) ps hs h (by simp) (by simp)
  have hlook : ∀ k, ps.lookup k = lastWrite paramWrite items k ∧
      hs.lookup k = lastWrite headerWrite items k := by
    intro k
    have hl := parseLoop_lookup items ([], []) ps hs h k
    refine ⟨?_, ?_⟩
    · rw [hl.1]; cases lastWrite paramWrite items k <;> simp [List.lookup]
    · rw [hl.2]; cases lastWrite headerWrite items k <;> simp [List.lookup]
  refine ⟨fun k => (hlook k).1, fun k => (hlook k).2, hnodup.1, hnodup.2, ?_, ?_⟩
  · intro k hk
    have hmem : k ∈ ps.map Prod.fst := by
      rw [← lookup_isSome_iff_mem_keys]
      rw [(hlook k).1]
      exact hk
    exact List.count_eq_one_of_mem hnodup.1 hmem
  · intro k hk
    have hmem : k ∈ hs.map Prod.fst := by
      rw [← lookup_isSome_iff_mem_keys]
      rw [(hlook k).2]
      exact hk
    exact List.count_eq_one_of_mem hnodup.2 hmem

/-- Witness for C9 on a list with colliding keys in both maps. -/
theorem last_occurrence_wins_witness :
    (([("a", Json.num 2 0)] : List (String × Json)).lookup "a" =
      lastWrite paramWrite ["a=1", "a:=2", "a:h1", "a:h2"] "a") ∧
    (([("a", "h2")] : List (String × String)).lookup "a" =
      lastWrite headerWrite ["a=1", "a:=2", "a:h1", "a:h2"] "a") ∧
    ((([("a", Json.num 2 0)] : List (String × Json)).map Prod.fst).count "a" = 1) := by
  have h := last_occurrence_wins ["a=1", "a:=2", "a:h1", "a:h2"]
    [("a", Json.num 2 0)] [("a", "h2")] rfl
  exact ⟨h.1 "a", h.2.1 "a", h.2.2.2.2.1 "a" (by rfl)⟩

/-! ## C5 -/

/-- C5: a method outside `METHODS` never reaches the transport: `main`
rejects it with a usage error and an empty event trace (zero transport
invocations), and even `Client.invoke` called directly with such a method
raises "Unsupported method" with only the client-construction event and no
transport event. -/
theorem unsupported_method_no_transport (url method : String) (items : List String)
    (verbose : Bool) (env : Env) (c : Client) (h : method ∉ METHODS)
    (hc : c.method = method) :
    main url method items verbose env =
      ([], some (.usageError ("Invalid method: " ++ method))) ∧
    (main url method items verbose env).1.countP Event.isTransport = 0 ∧
    Client.invoke c verbose env =
      ([.acquire c.headers], some ("Unsupported method: " ++ method)) ∧
    (Client.invoke c verbose env).1.countP Event.isTransport = 0 := by
  have h1 : method ≠ "message/send" := fun hh => h (by rw [hh]; simp [METHODS])
  have h2 : method ≠ "message/stream" := fun hh => h (by rw [hh]; simp [METHODS])
  have hcont : METHODS.contains method = false := by
    simp [METHODS, h1, h2]
  have hmain : main url method items verbose env =
      ([], some (.usageError ("Invalid method: " ++ method))) := by
    unfold main
    rw [if_neg (by simpa using h)]
  have hinv : Client.invoke c verbose env =
      ([.acquire c.headers], some ("Unsupported method: " ++ method)) := by
    simp [Client.invoke, hc, h1, h2]
  refine ⟨hmain, ?_, hinv, ?_⟩
  · rw [hmain]; rfl
  · rw [hinv]; rfl

/-- Witness for C5 at the unsupported method `"bogus"`. -/
theorem unsupported_method_no_transport_witness :
    main "http://e" "bogus" [] false ⟨fun p => .ok p, "id0", .sendSuccess .null, []⟩ =
      ([], some (.usageError "Invalid method: bogus")) ∧
    Client.invoke ⟨"http://e", "bogus", [], []⟩ false
        ⟨fun p => .ok p, "id0", .sendSuccess .null, []⟩ =
      ([.acquire [], ], some "Unsupported method: bogus") := by
  have h := unsupported_method_no_transport "http://e" "bogus" [] false
    ⟨fun p => .ok p, "id0", .sendSuccess .null, []⟩
    ⟨"http://e", "bogus", [], []⟩ (by decide) rfl
  exact ⟨h.1, h.2.2.1⟩

/-! ## C6 -/

/-- C6: a streaming response of envelopes `e1..eN`, all recognized, is
rendered strictly in arrival order, each envelope's extracted result printed
immediately after that envelope is consumed and before the next is consumed —
no envelope dropped, reordered, or batched — and the loop completes without
error. -/
theorem streaming_order_preserved (chunks : List RPCResponse)
    (h : ∀ c ∈ chunks, c.recognized = true) :
    show_response_stream false chunks =
      (chunks.flatMap (fun c =>
        [.consume c, .printOut (model_dump_exclude_none c.payload)]), none) := by
  induction chunks with
  | nil => simp [show_response_stream]
  | cons c rest ih =>
    have hc : c.recognized = true := h c (by simp)
    have hg : get_result c = .ok c.payload := by
      cases c <;> simp_all [get_result, RPCResponse.payload, RPCResponse.recognized]
    have htail := ih (fun x hx => h x (by simp [hx]))
    simp [show_response_stream, hg, htail]

/-- Witness for C6 on a two-envelope stream. -/
theorem streaming_order_preserved_witness :
    show_response_stream false [.streamSuccess (.str "one"), .errorResp (.str "oops")] =
      ([.consume (.streamSuccess (.str "one")), .printOut (.str "one"),
        .consume (.errorResp (.str "oops")), .printOut (.str "oops")], none) := by
  have h := streaming_order_preserved
    [.streamSuccess (.str "one"), .errorResp (.str "oops")]
    (by intro c hc; simp at hc; rcases hc with h1 | h1 <;> subst h1 <;> rfl)
  simpa using h

/-! ## C7 -/

theorem release_not_in_show_request (verbose : Bool) (req : Json) :
    Event.release ∉ show_request verbose req := by
  cases verbose <;> simp [show_request]

theorem release_not_in_show_response_value (verbose : Bool) (r : RPCResponse) :
    Event.release ∉ (show_response_value verbose r).1 := by
  cases verbose
  · cases hg : get_result r <;> simp [show_response_value, hg]
  · simp [show_response_value]

theorem release_not_in_show_response_stream (verbose : Bool) (chunks : List RPCResponse) :
    Event.release ∉ (show_response_stream verbose chunks).1 := by
  induction chunks with
  | nil => simp [show_response_stream]
  | cons c rest ih =>
    cases verbose
    · cases hg : get_result c <;> simp [show_response_stream, hg, ih]
    · simp [show_response_stream, ih]

/-- C7 counterexample: a successfully completed unary call — a terminal
state of the per-call state machine — acquires the transport client but its
trace contains no release of it: the claim that every exit path releases
the transport fails already on the success path. -/
theorem transport_release_counterexample :
    Client.invoke ⟨"http://e", "message/send", [], []⟩ false
        ⟨fun p => .ok p, "id0", .sendSuccess (.str "done"), []⟩ =
      ([.acquire [], .transportSend [], .printOut (.str "done")], none) ∧
    Event.release ∉ [Event.acquire [], Event.transportSend [],
      Event.printOut (Json.str "done")] := by
  refine ⟨rfl, ?_⟩
  simp

/-- C7 (amended): every execution of `Client.invoke` acquires the transport
client as its first step, and NO exit path — success, drained stream, or
failure — ever releases it; the `httpx.AsyncClient` is never closed by the
call and is reclaimed only when the process exits. -/
theorem transport_never_released (c : Client) (verbose : Bool) (env : Env) :
    (Client.invoke c verbose env).1.head? = some (.acquire c.headers) ∧
    Event.release ∉ (Client.invoke c verbose env).1 := by
  unfold Client.invoke
  by_cases h1 : c.method = "message/send"
  · simp only [h1, if_pos rfl]
    cases hv : env.validate c.params with
    | error msg => simp
    | ok params =>
      simp only []
      constructor
      · rfl
      · intro hmem
        simp at hmem
        exact hmem.elim (fun h => release_not_in_show_request verbose _ h)
          (fun h => release_not_in_show_response_value verbose _ h)
  · by_cases h2 : c.method = "message/stream"
    · simp only [h1, if_neg h1, h2, if_pos rfl]
      cases hv : env.validate c.params with
      | error msg => simp
      | ok params =>
        simp only []
        constructor
        · rfl
        · intro hmem
          simp at hmem
          exact hmem.elim (fun h => release_not_in_show_request verbose _ h)
            (fun h => release_not_in_show_response_stream verbose _ h)
    · simp [h1, h2]

/-! ## C8 -/

mutual

theorem exclude_none_id (j : Json) (h : noNullFieldsJson j = true) :
    model_dump_exclude_none j = j := by
  cases j with
  | null => rfl
  | bool b => rfl
  | num m e => rfl
  | str s => rfl
  | arr xs =>
    rw [model_dump_exclude_none,
      excludeNoneList_id xs (by simpa [noNullFieldsJson] using h)]
  | obj fs =>
    rw [model_dump_exclude_none,
      excludeNoneFields_id fs (by simpa [noNullFieldsJson] using h)]

theorem excludeNoneList_id (xs : List Json) (h : noNullFieldsList xs = true) :
    excludeNoneList xs = xs := by
  cases xs with
  | nil => rfl
  | cons j rest =>
    rw [noNullFieldsList, Bool.and_eq_true] at h
    rw [excludeNoneList, exclude_none_id j h.1, excludeNoneList_id rest h.2]

theorem excludeNoneFields_id (fs : List (String × Json)) (h : noNullFieldsFields fs = true) :
    excludeNoneFields fs = fs := by
  cases fs with
  | nil => rfl
  | cons p rest =>
    obtain ⟨k, v⟩ := p
    rw [noNullFieldsFields, Bool.and_eq_true, Bool.and_eq_true] at h
    obtain ⟨⟨hnn, hv⟩, hrest⟩ := h
    rw [excludeNoneFields]
    rw [if_neg (by simp at hnn; simp [hnn])]
    rw [exclude_none_id v hv, excludeNoneFields_id rest hrest]

end

theorem excludeNoneFields_keys_subset (fs : List (String × Json)) (k : String)
    (h : k ∈ (excludeNoneFields fs).map Prod.fst) : k ∈ fs.map Prod.fst := by
  induction fs with
  | nil => simp [excludeNoneFields] at h
  | cons p rest ih =>
    obtain ⟨k1, v1⟩ := p
    rw [excludeNoneFields] at h
    by_cases hnull : v1.isNull
    · rw [if_pos hnull] at h
      simp [ih h]
    · rw [if_neg hnull] at h
      simp at h ⊢
      exact h.imp id (fun hh => by simpa using ih (by simpa using hh))

theorem excludeNoneFields_lookup (fs : List (String × Json)) (k : String) (v : Json)
    (hnodup : (fs.map Prod.fst).Nodup) (hv : fs.lookup k = some v) :
    (excludeNoneFields fs).lookup k =
      if v.isNull then none else some (model_dump_exclude_none v) := by
  induction fs with
  | nil => simp at hv
  | cons p rest ih =>
    obtain ⟨k1, v1⟩ := p
    rw [List.map_cons, List.nodup_cons] at hnodup
    by_cases hk : k = k1
    · subst hk
      rw [List.lookup_cons_self] at hv
      injection hv with hv
      rw [← hv]
      rw [excludeNoneFields]
      by_cases hnull : v1.isNull
      · rw [if_pos hnull, if_pos hnull]
        have hmem : k ∉ (excludeNoneFields rest).map Prod.fst :=
          fun hm => hnodup.1 (excludeNoneFields_keys_subset rest k hm)
        have := (lookup_isSome_iff_mem_keys (excludeNoneFields rest) k).not.mpr hmem
        cases hl : (excludeNoneFields rest).lookup k with
        | none => rfl
        | some w => rw [hl] at this; simp at this
      · rw [if_neg hnull]
        simp [hnull]
    · have hb : (k == k1) = false := beq_eq_false_iff_ne.mpr hk
      rw [List.lookup_cons, hb] at hv
      rw [excludeNoneFields]
      by_cases hnull : v1.isNull
      · rw [if_pos hnull]
        exact ih hnodup.2 hv
      · rw [if_neg hnull, List.lookup_cons, hb]
        exact ih hnodup.2 hv

/-- C8 counterexample: a present field bound to an EMPTY (but non-null)
value is NOT omitted by the rendering: the success payload
`{"a": []}` renders with the field `"a"` still present, refuting
"omits all absent and empty fields". -/
theorem render_empty_field_counterexample :
    model_dump_exclude_none (.obj [("a", .arr [])]) = .obj [("a", .arr [])] ∧
    show_response_value false (.sendSuccess (.obj [("a", .arr [])])) =
      ([.printOut (.obj [("a", .arr [])])], none) :=
  ⟨rfl, rfl⟩

/-- C8 (amended): rendering a success payload omits exactly the fields
bound to `null` (pydantic's `exclude_none`), recursively; every present
field with a non-null value is kept under its key with its value likewise
filtered — verbatim, nesting included, whenever the value contains no null
fields itself. Empty-but-non-null fields are NOT omitted. -/
theorem render_preserves_present_fields (fs : List (String × Json)) (k : String) (v : Json)
    (hnodup : (fs.map Prod.fst).Nodup) (hv : fs.lookup k = some v) :
    model_dump_exclude_none (.obj fs) = .obj (excludeNoneFields fs) ∧
    ((excludeNoneFields fs).lookup k =
      if v.isNull then none else some (model_dump_exclude_none v)) ∧
    (noNullFieldsJson v = true → v.isNull = false →
      (excludeNoneFields fs).lookup k = some v) := by
  refine ⟨rfl, excludeNoneFields_lookup fs k v hnodup hv, ?_⟩
  intro hnn hnull
  rw [excludeNoneFields_lookup fs k v hnodup hv, if_neg (by simp [hnull]),
    exclude_none_id v hnn]

/-- Witness for C8 (amended): the null field `"gone"` is dropped, the
nested non-null field `"kept"` survives verbatim. -/
theorem render_preserves_present_fields_witness :
    ((excludeNoneFields [("gone", Json.null), ("kept", Json.obj [("c", Json.num 1 0)])]).lookup
      "gone" = none) ∧
    ((excludeNoneFields [("gone", Json.null), ("kept", Json.obj [("c", Json.num 1 0)])]).lookup
      "kept" = some (Json.obj [("c", Json.num 1 0)])) := by
  have h1 := render_preserves_present_fields
    [("gone", Json.null), ("kept", Json.obj [("c", Json.num 1 0)])] "gone" Json.null
    (by simp) rfl
  have h2 := render_preserves_present_fields
    [("gone", Json.null), ("kept", Json.obj [("c", Json.num 1 0)])] "kept"
    (Json.obj [("c", Json.num 1 0)]) (by simp) rfl
  refine ⟨?_, h2.2.2 rfl rfl⟩
  have := h1.2.1
  simpa [Json.isNull] using this

end Ca2a
